import Mathlib

/-!
Verification development for the strudel-studio generation pipeline.

The development shallowly embeds, from the TypeScript source:
  * the deterministic code validator (`validateStrudelCode`,
    `extractCodeFromMarkdown`, `formatValidationResult`);
  * the tool registry (`executeTool`, `truncateGenreContent`) of the two
    agent API routes, including the JavaScript value semantics (falsiness,
    `toLowerCase` throwing on non-strings) needed to settle the
    "never throws" contract;
  * the fast (JSON) agent route and the streaming (SSE) agent route,
    as fuel-indexed loops over an abstract text-generation capability.

The JavaScript parser used for syntax checking (`acorn.parse`) is external
to the repository; it is modelled as an oracle (`ParseResult` input for a
single call, `String → ParseResult` where the routes parse varying
strings).  Everything after the parse call is translated directly from
the source.
-/

namespace StrudelStudio

/-! ## Character classes (JavaScript regex semantics, ASCII range) -/

/-- JavaScript whitespace (`\s`), restricted to the ASCII range; the
Unicode space characters are not modelled. -/
def isJsWs (c : Char) : Bool :=
  c == ' ' || c == '\t' || c == '\n' || c == '\r' || c == '\x0b' || c == '\x0c'

def isAsciiLowerAlpha (c : Char) : Bool :=
  decide (97 ≤ c.toNat ∧ c.toNat ≤ 122)

def isAsciiUpperAlpha (c : Char) : Bool :=
  decide (65 ≤ c.toNat ∧ c.toNat ≤ 90)

def isAsciiAlpha (c : Char) : Bool :=
  isAsciiLowerAlpha c || isAsciiUpperAlpha c

def isAsciiDigit (c : Char) : Bool :=
  decide (48 ≤ c.toNat ∧ c.toNat ≤ 57)

/-- JavaScript word character (`\w`): `[A-Za-z0-9_]`. -/
def isWordChar (c : Char) : Bool :=
  isAsciiAlpha c || isAsciiDigit c || c == '_'

/-! ## List-of-characters string utilities -/

/-- `leadMatch n h` holds when `n` is a leading segment of `h`. -/
def leadMatch : List Char → List Char → Bool
  | [], _ => true
  | _ :: _, [] => false
  | n :: ns, h :: hs => n == h && leadMatch ns hs

/-- Substring occurrence scan, the model of JavaScript `String.includes`. -/
def subMatch (ned : List Char) : List Char → Bool
  | [] => leadMatch ned []
  | h :: hs => leadMatch ned (h :: hs) || subMatch ned hs

/-- Model of `haystack.includes(needle)`. -/
def strIncludes (hay ned : String) : Bool :=
  subMatch ned.data hay.data

/-- Drop all leading JavaScript whitespace. -/
def dropWsStar : List Char → List Char
  | [] => []
  | c :: rest => if isJsWs c then dropWsStar rest else c :: rest

/-- Consume `\s+` (one or more whitespace characters), greedily. -/
def dropWsPlus : List Char → Option (List Char)
  | [] => none
  | c :: rest => if isJsWs c then some (dropWsStar rest) else none

/-- Drop all leading word characters. -/
def dropWordStar : List Char → List Char
  | [] => []
  | c :: rest => if isWordChar c then dropWordStar rest else c :: rest

/-- Consume `\w+` (one or more word characters), greedily. -/
def dropWordPlus : List Char → Option (List Char)
  | [] => none
  | c :: rest => if isWordChar c then some (dropWordStar rest) else none

/-- JavaScript `String.trim` on the character list (ASCII whitespace). -/
def trimChars (cs : List Char) : List Char :=
  ((dropWsStar (dropWsStar cs).reverse)).reverse

/-- The characters after the last newline: `s.split('\n').pop()`. -/
def lastLineOf (cs : List Char) : List Char :=
  (cs.reverse.takeWhile (fun c => !(c == '\n'))).reverse

/-! ## The regular expressions of the validator -/

/-- Matcher for `let\s+\w+\s*=\s*;` anchored at the head of the list.
The pattern's character classes are disjoint, so the greedy match never
needs to backtrack. -/
def emptyLetAt : List Char → Bool
  | 'l' :: 'e' :: 't' :: rest =>
    match dropWsPlus rest with
    | none => false
    | some r1 =>
      match dropWordPlus r1 with
      | none => false
      | some r2 =>
        match dropWsStar r2 with
        | '=' :: r3 =>
          match dropWsStar r3 with
          | ';' :: _ => true
          | _ => false
        | _ => false
  | _ => false

/-- Scan for `/\blet\s+\w+\s*=\s*;/`: the flag records whether the
previous character was a word character (for the `\b` boundary). -/
def emptyLetScan : List Char → Bool → Bool
  | [], _ => false
  | c :: rest, prevWord =>
    (!prevWord && emptyLetAt (c :: rest)) || emptyLetScan rest (isWordChar c)

/-- Model of `/\blet\s+\w+\s*=\s*;/.test(code)`. -/
def hasEmptyLet (code : String) : Bool :=
  emptyLetScan code.data false

/-- Model of `/\)\s*$/.test(s)`: some suffix of `s` is `)` followed by
whitespace only, i.e. after discarding trailing whitespace the last
character is `)`. -/
def closeParenThenWsEnd (cs : List Char) : Bool :=
  match dropWsStar cs.reverse with
  | c :: _ => c == ')'
  | [] => false

/-- After the leading identifier character: `[a-z0-9_]*\s*` up to the end
of the line (the `i` flag admits upper-case letters). -/
def identTailThenWs : List Char → Bool
  | [] => true
  | c :: rest =>
    if isAsciiAlpha c || isAsciiDigit c || c == '_' then identTailThenWs rest
    else isJsWs c && rest.all isJsWs

/-- Model of `/^[a-z_][a-z0-9_]*\s*$/im.test(line)` on one element of a
`split('\n')`, which contains no `\n`.  The `m` flag also lets `^`/`$`
break at `\r`, U+2028 and U+2029; those line terminators are not
modelled — inputs are assumed free of them (this feeds only the
playable-expression warning). -/
def isBareIdentLine : List Char → Bool
  | [] => false
  | c :: rest => (isAsciiAlpha c || c == '_') && identTailThenWs rest

/-! ## The validator (`src/lib/validator.ts`) -/

/-- `{ valid, errors, warnings }` as produced by `validateStrudelCode`. -/
structure ValidationResult where
  valid : Bool
  errors : List String
  warnings : List String
deriving DecidableEq

/-- The data the `acorn` parse failure path reads off the thrown error:
its message and, when present, a line/column location. -/
structure ParseError where
  message : String
  loc : Option (Nat × Nat)
deriving DecidableEq

/-- Outcome of the external `acorn.parse` call, treated as an oracle. -/
inductive ParseResult where
  | success
  | failure (e : ParseError)
deriving DecidableEq

/-- The deny-list of hallucinated Strudel calls. -/
def hallucinations : List String :=
  [".tempo(", ".glide(", ".portamento(", ".slide(", ".volume("]

/-- The error string pushed on a parse failure. -/
def syntaxErrorMessage (e : ParseError) : String :=
  let location :=
    match e.loc with
    | some lc => " (line " ++ toString lc.1 ++ ", col " ++ toString lc.2 ++ ")"
    | none => ""
  "Syntax error" ++ location ++ ": " ++ e.message

/-- The error string for one deny-listed call `h`, using
`h.slice(1, -1)` for the bare name. -/
def hallucinationErrorMessage (h : String) : String :=
  let name := (h.drop 1).dropRight 1
  "\"" ++ name ++ "\" is not a real Strudel function"

def missingTempoMessage : String :=
  "Missing tempo - use setcps(BPM/4/60), e.g. setcps(130/4/60)"

/-- The playable-expression heuristic of step 3 of the validator. -/
def hasPlayable (code : String) : Bool :=
  strIncludes code "stack(" ||
  strIncludes code "arrange(" ||
  strIncludes code "cat(" ||
  strIncludes code "sequence(" ||
  closeParenThenWsEnd (trimChars code.data) ||
  isBareIdentLine (lastLineOf (trimChars code.data))

/-- `validateStrudelCode`, with the `acorn.parse` outcome supplied as an
oracle.  On parse failure the function short-circuits with the single
syntax error; otherwise errors are pushed in source order (missing tempo,
deny-listed calls, empty assignment) and warnings likewise (playable
heuristic, literal `undefined`). -/
def validateStrudelCode (parse : ParseResult) (code : String) : ValidationResult :=
  match parse with
  | .failure e => { valid := false, errors := [syntaxErrorMessage e], warnings := [] }
  | .success =>
    let tempoErrors :=
      if strIncludes code "setcps(" then [] else [missingTempoMessage]
    let playableWarnings :=
      if hasPlayable code then []
      else ["Code should end with stack(), arrange(), or a pattern expression"]
    let hallucinationErrors :=
      hallucinations.filterMap fun h =>
        if strIncludes code h then some (hallucinationErrorMessage h) else none
    let undefinedWarnings :=
      if strIncludes code "undefined" then
        ["Code contains \"undefined\" - check variable names"]
      else []
    let emptyLetErrors :=
      if hasEmptyLet code then ["Empty variable assignment found"] else []
    let errors := tempoErrors ++ hallucinationErrors ++ emptyLetErrors
    { valid := errors.isEmpty
      errors := errors
      warnings := playableWarnings ++ undefinedWarnings }

/-- `formatValidationResult`: pass/fail line, error bullets, then a
warnings section when warnings exist. -/
def formatValidationResult (result : ValidationResult) : String :=
  let head :=
    if result.valid then ["✓ Code is valid!"]
    else "✗ Validation failed:" :: result.errors.map (fun e => "  - " ++ e)
  let warn :=
    if result.warnings.isEmpty then []
    else "\nWarnings:" :: result.warnings.map (fun w => "  ⚠ " ++ w)
  String.intercalate "\n" (head ++ warn)

/-! ## Markdown code-fence extraction

`extractCodeFromMarkdown` matches `/```(?:javascript|js)?\n([\s\S]*?)```/`.
The three language alternatives are mutually exclusive on any given text,
and the lazy capture takes the shortest body followed by a closing fence,
so the match is deterministic. -/

/-- Strip a literal leading segment. -/
def dropLead : List Char → List Char → Option (List Char)
  | [], rest => some rest
  | _ :: _, [] => none
  | p :: ps, c :: rest => if p == c then dropLead ps rest else none

/-- Match the opening fence ```` ```(?:javascript|js)?\n ```` at the head,
returning the remainder after the newline. -/
def matchFenceAt (cs : List Char) : Option (List Char) :=
  match dropLead ['`', '`', '`'] cs with
  | none => none
  | some r =>
    match dropLead "javascript".data r with
    | some ('\n' :: r2) => some r2
    | _ =>
      match dropLead "js".data r with
      | some ('\n' :: r2) => some r2
      | _ =>
        match r with
        | '\n' :: r2 => some r2
        | _ => none

/-- Lazy capture: shortest leading segment after which ```` ``` ```` opens. -/
def splitAtFence : List Char → Option (List Char)
  | [] => none
  | c :: rest =>
    if leadMatch ['`', '`', '`'] (c :: rest) then some []
    else (splitAtFence rest).map (fun b => c :: b)

/-- Leftmost match of the fenced-block pattern; the captured body. -/
def extractFirstFence : List Char → Option (List Char)
  | [] => none
  | c :: rest =>
    match matchFenceAt (c :: rest) with
    | some afterOpen =>
      match splitAtFence afterOpen with
      | some body => some body
      | none => extractFirstFence rest
    | none => extractFirstFence rest

/-- `extractCodeFromMarkdown`: the captured body, trimmed. -/
def extractCodeFromMarkdown (content : String) : Option String :=
  (extractFirstFence content.data).map (fun b => String.mk (trimChars b))

/-- `checkIfCodeValidated` of the streaming route: extract a fenced code
block and rerun the validator on it (`parse` is the acorn oracle). -/
def checkIfCodeValidated (parse : String → ParseResult) (content : String) : Bool :=
  match extractCodeFromMarkdown content with
  | none => false
  | some code => (validateStrudelCode (parse code) code).valid

/-! ## JavaScript values and the tool registry

`executeTool` receives `input: Record<string, unknown>`; the two routes
only read `input.genre` and `input.code`.  The JavaScript semantics that
matter are falsiness and the fact that `.toLowerCase()` / `.includes()`
throw a `TypeError` on non-strings; both are modelled explicitly so that
the "never throws" contract becomes a statement about `Except`. -/

/-- An argument value as JavaScript sees it (a missing key is `none` at
the use sites). -/
inductive JValue where
  | str (s : String)
  | num (n : Int)
  | bool (b : Bool)
  | null
  | obj
deriving DecidableEq

/-- JavaScript falsiness of `input.k` (`none` models `undefined`). -/
def jsFalsy : Option JValue → Bool
  | none => true
  | some (.str s) => s == ""
  | some (.num n) => n == 0
  | some (.bool b) => !b
  | some .null => true
  | some .obj => false

/-- The argument payload of one tool call. -/
structure ToolInput where
  genre : Option JValue
  code : Option JValue
deriving DecidableEq

/-- JavaScript `String(v)` coercion. -/
def jsStringOf : JValue → String
  | .str s => s
  | .num n => toString n
  | .bool b => if b then "true" else "false"
  | .null => "null"
  | .obj => "[object Object]"

/-- `((input.genre as string) || '')`. -/
def jsOrEmptyStr : Option JValue → JValue
  | none => .str ""
  | some v => if jsFalsy (some v) then .str "" else v

/-- The key normalisation of `read_genre`:
`.toLowerCase().replace(/[^a-z]/g, '')`. -/
def normalizeGenreKey (s : String) : String :=
  String.mk ((s.data.map Char.toLower).filter isAsciiLowerAlpha)

/-- `truncateGenreContent`, inner loop over the lines.  String lengths
are measured in characters (the UTF-16 code-unit count of the source
coincides on the ASCII content at issue). -/
def truncateGenreLoop : List String → String → String
  | [], result => result
  | line :: rest, result =>
    if strIncludes line "## FX Profile" || strIncludes line "## Structure" then
      result ++ "\n(See full genre file for FX/structure details)"
    else
      let result2 := result ++ line ++ "\n"
      if result2.length > 2500 then (result2.take 2500) ++ "\n..."
      else truncateGenreLoop rest result2

/-- `truncateGenreContent` of the fast and streaming routes. -/
def truncateGenreContent (content : String) : String :=
  if content.length ≤ 2500 then content
  else truncateGenreLoop (content.splitOn "\n") ""

/-- The advisory string for an unrecognised (normalised) genre key. -/
def unknownGenreMessage (genre : String) (avail : List String) : String :=
  "Unknown genre \"" ++ genre ++ "\". Available: " ++ String.intercalate ", " avail ++
  ". Proceed with general electronic music style."

/-- The value one tool execution returns, as JavaScript sees it: in one
corner case the program returns an inherited function object instead of
a string. -/
inductive ToolReturn where
  | str (s : String)
  | jsFunction
deriving DecidableEq

/-- A property read on the generated `BUNDLED_GENRES` object. -/
inductive PropValue where
  | ownStr (s : String)
  | protoConstructor
deriving DecidableEq

/-- JavaScript property access `BUNDLED_GENRES[k]`: an own property when
the key is in the table, otherwise the `Object.prototype` chain.
`BUNDLED_GENRES` is a plain object literal, so a missing key falls
through to `Object.prototype`.  The normalised key consists only of
`a`-`z`, and the only `Object.prototype` member whose exact name is all
lower-case letters is `constructor` (`hasOwnProperty`, `toString`,
`valueOf`, the dunder accessors and the rest contain upper-case letters
or underscores), so `constructor` is the one inherited property such a
key can reach. -/
def bundledGenreProp (genres : List (String × String)) (k : String) : Option PropValue :=
  match List.lookup k genres with
  | some c => some (.ownStr c)
  | none => if k == "constructor" then some .protoConstructor else none

/-- `executeTool` of the fast and streaming routes.  `genres` models the
bundled `BUNDLED_GENRES` record as an association list and `avail` models
`AVAILABLE_GENRES`; `parse` is the acorn oracle used by the validator.
An `Except.error` models a thrown JavaScript exception:
  * `read_genre` calls `.toLowerCase()` on `(input.genre as string) || ''`,
    which throws when the value is truthy but not a string;
  * `read_genre` reads `BUNDLED_GENRES[genre]` through the prototype
    chain (`bundledGenreProp`): at the normalised key `constructor` a
    missing own property yields the truthy
    `Object.prototype.constructor` function, `!content` is false, and
    `truncateGenreContent(content)` reads `content.length` — the
    function's arity, 1 ≤ 2500 — and returns the function unchanged, so
    the tool returns a function object, not a string;
  * `validate_code` hands the raw value to `validateStrudelCode`; `acorn`
    stringifies its input, so a truthy number/boolean parses (as a numeral
    or identifier expression) and the subsequent `code.includes(...)` on
    the original non-string value throws, while an object stringifies to
    `[object Object]`, fails to parse, and returns through the caught
    syntax-error path. -/
def executeTool (genres : List (String × String)) (avail : List String)
    (parse : String → ParseResult) (name : String) (input : ToolInput) :
    Except String ToolReturn :=
  if name == "read_genre" then
    match jsOrEmptyStr input.genre with
    | .str s =>
      let genre := normalizeGenreKey s
      match bundledGenreProp genres genre with
      | some (.ownStr content) =>
        if content == "" then .ok (.str (unknownGenreMessage genre avail))
        else .ok (.str (truncateGenreContent content))
      | some .protoConstructor => .ok .jsFunction
      | none => .ok (.str (unknownGenreMessage genre avail))
    | _ => .error "TypeError: toLowerCase is not a function"
  else if name == "validate_code" then
    if jsFalsy input.code then .ok (.str "Error: No code provided to validate")
    else
      match input.code with
      | some (.str s) => .ok (.str (formatValidationResult (validateStrudelCode (parse s) s)))
      | some v =>
        match parse (jsStringOf v) with
        | .failure e =>
          .ok (.str (formatValidationResult (validateStrudelCode (.failure e) (jsStringOf v))))
        | .success => .error "TypeError: code.includes is not a function"
      | none => .error "TypeError: code.includes is not a function"
  else .ok (.str ("Unknown tool: " ++ name))

/-! ## Conversation, capability and the two agent routes

The external text-generation capability (`anthropic.messages.create`) is
modelled as a function from the accumulated message list to an outcome:
a response (stop reason plus content blocks), a thrown
`Anthropic.APIError`, or any other thrown error.  Elapsed wall-clock time
is an oracle `elapsedAt : Nat → Nat`, read before iteration `k` (and once
more on completion); both loops are driven by the fuel
`maxIterations - iterations`, matching the `while (iterations <
maxIterations)` condition.  Each loop also returns the number of
capability invocations it performed. -/

inductive Role where
  | user
  | assistant
deriving DecidableEq

/-- One content block of a model response. -/
inductive ContentBlock where
  | text (t : String)
  | toolUse (tid : String) (name : String) (input : ToolInput)
deriving DecidableEq

/-- One tool result block, keyed by the tool call's correlation id; its
`content` is whatever value the tool execution returned. -/
structure ToolResultBlock where
  toolUseId : String
  content : ToolReturn
deriving DecidableEq

/-- The content payload of one conversation message. -/
inductive MsgContent where
  | text (s : String)
  | blocks (bs : List ContentBlock)
  | results (rs : List ToolResultBlock)
deriving DecidableEq

/-- One conversation turn. -/
structure ChatMessage where
  role : Role
  content : MsgContent
deriving DecidableEq

/-- `response.stop_reason` (an open enumeration upstream). -/
inductive StopReason where
  | endTurn
  | toolUse
  | other (s : String)
deriving DecidableEq

/-- A model response: stop reason and content blocks. -/
structure ModelResponse where
  stopReason : StopReason
  content : List ContentBlock
deriving DecidableEq

/-- The outcome of one `anthropic.messages.create` call. -/
inductive ApiOutcome where
  | ok (r : ModelResponse)
  | apiError (status : Option Nat) (message : String)
  | otherError
deriving DecidableEq

/-- The text-generation capability as seen by the loop. -/
def Capability : Type := List ChatMessage → ApiOutcome

/-- Filter text blocks, take their text, join with newlines. -/
def textContentOf (bs : List ContentBlock) : String :=
  String.intercalate "\n"
    (bs.filterMap fun b => match b with | .text t => some t | _ => none)

/-- The tool-use blocks: correlation id, tool name, argument payload. -/
def toolUseBlocksOf (bs : List ContentBlock) : List (String × String × ToolInput) :=
  bs.filterMap fun b =>
    match b with
    | .toolUse tid name input => some (tid, name, input)
    | _ => none

/-- Dispatch every requested tool call in order; the first thrown
exception aborts the whole map (and is caught by the route's handler). -/
def runTools (genres : List (String × String)) (avail : List String)
    (parse : String → ParseResult) :
    List (String × String × ToolInput) → Except String (List ToolResultBlock)
  | [] => .ok []
  | (tid, name, input) :: rest =>
    match executeTool genres avail parse name input with
    | .error e => .error e
    | .ok s =>
      match runTools genres avail parse rest with
      | .error e => .error e
      | .ok rs => .ok ({ toolUseId := tid, content := s } :: rs)

/-- The conversation extension after a tool round: the assistant's raw
turn followed by a synthetic user turn carrying all tool results. -/
def appendToolRound (msgs : List ChatMessage) (respContent : List ContentBlock)
    (results : List ToolResultBlock) : List ChatMessage :=
  msgs ++ [{ role := .assistant, content := .blocks respContent },
           { role := .user, content := .results results }]

/-! ### The fast (single JSON response) route -/

/-- The JSON body/status a fast-route run produces; absent JSON fields
are `none`. -/
structure JsonResponse where
  status : Nat
  content : Option String
  iterations : Option Nat
  timeMs : Option Nat
  error : Option String
  timeout : Bool
deriving DecidableEq

def tooManyStepsMessage : String :=
  "Generation taking too many steps. Try a simpler request."

def tooLongMessage : String :=
  "Generation taking too long. Try a simpler request."

def genericFailureMessage : String :=
  "Failed to generate. Please try again."

/-- The fast route's catch-all 500 response. -/
def genericFailureResponse : JsonResponse :=
  { status := 500, content := none, iterations := none, timeMs := none,
    error := some genericFailureMessage, timeout := false }

/-- One fast-route agent loop, on fuel `maxIterations - iterations`.
Thrown exceptions (API errors, tool `TypeError`s) are returned as the
response the surrounding `catch` block builds for them.  The second
component counts capability invocations. -/
def fastLoop (cap : Capability) (parse : String → ParseResult)
    (genres : List (String × String)) (avail : List String)
    (elapsedAt : Nat → Nat) :
    Nat → List ChatMessage → Nat → JsonResponse × Nat
  | 0, _, iters =>
    ({ status := 500, content := none, iterations := some iters, timeMs := none,
       error := some tooManyStepsMessage, timeout := false }, 0)
  | fuel + 1, msgs, iters =>
    if elapsedAt iters > 25000 then
      ({ status := 504, content := none, iterations := none, timeMs := none,
         error := some tooLongMessage, timeout := true }, 0)
    else
      match cap msgs with
      | .apiError st m =>
        ({ status := st.getD 500, content := none, iterations := none, timeMs := none,
           error := some m, timeout := false }, 1)
      | .otherError => (genericFailureResponse, 1)
      | .ok resp =>
        match resp.stopReason with
        | .endTurn =>
          ({ status := 200, content := some (textContentOf resp.content),
             iterations := some (iters + 1), timeMs := some (elapsedAt (iters + 1)),
             error := none, timeout := false }, 1)
        | .toolUse =>
          match toolUseBlocksOf resp.content with
          | [] =>
            ({ status := 200, content := some (textContentOf resp.content),
               iterations := some (iters + 1), timeMs := none,
               error := none, timeout := false }, 1)
          | tub :: tubs =>
            match runTools genres avail parse (tub :: tubs) with
            | .error _ => (genericFailureResponse, 1)
            | .ok results =>
              let next := fastLoop cap parse genres avail elapsedAt fuel
                (appendToolRound msgs resp.content results) (iters + 1)
              (next.1, next.2 + 1)
        | .other _ =>
          ({ status := 200, content := some (textContentOf resp.content),
             iterations := some (iters + 1), timeMs := none,
             error := none, timeout := false }, 1)

/-- The inbound request body as the route decodes it: `req.json()` can
throw, and a `messages` field that is not an array makes `messages.map`
throw a `TypeError`. -/
inductive RequestBody where
  | malformed
  | notList
  | messagesOf (msgs : List ChatMessage)

/-- The fast route's `POST` handler (`maxIterations = 4`,
timeout 25000 ms).  A body failure is caught by the outer `try/catch`
and answered with the generic 500, before any capability invocation. -/
def POSTfast (hasApiKey : Bool) (cap : Capability) (parse : String → ParseResult)
    (genres : List (String × String)) (avail : List String)
    (elapsedAt : Nat → Nat) (body : RequestBody) : JsonResponse × Nat :=
  if !hasApiKey then
    ({ status := 500, content := none, iterations := none, timeMs := none,
       error := some "ANTHROPIC_API_KEY not configured", timeout := false }, 0)
  else
    match body with
    | .malformed => (genericFailureResponse, 0)
    | .notList => (genericFailureResponse, 0)
    | .messagesOf msgs => fastLoop cap parse genres avail elapsedAt 4 msgs 0

/-! ### The streaming (SSE) route -/

/-- One server-sent event of the streaming route, with the payload shape
of each kind.  The `validated` field of `complete` is optional because
two emission sites omit it. -/
inductive StreamEvent where
  | started (message : String)
  | progress (iteration : Nat) (message : String)
  | tools (names : List String) (message : String)
  | complete (content : String) (iterations : Nat) (timeMs : Nat) (validated : Option Bool)
  | error (message : String) (iterations : Option Nat)
deriving DecidableEq

def isStartedEvent : StreamEvent → Bool
  | .started _ => true
  | _ => false

def isTerminalEvent : StreamEvent → Bool
  | .complete _ _ _ _ => true
  | .error _ _ => true
  | _ => false

def isMidEvent : StreamEvent → Bool
  | .progress _ _ => true
  | .tools _ _ => true
  | _ => false

/-- The progress message of iteration `k`. -/
def progressMessage (k : Nat) : String :=
  if k == 1 then "Generating track..." else "Iteration " ++ toString k ++ "..."

/-- The derived status message of a `tools` event. -/
def toolsMessage (names : List String) : String :=
  if names.contains "validate_code" then "Validating code..."
  else if names.contains "read_genre" then "Loading genre patterns..."
  else "Processing..."

/-- One streaming-route agent loop (`maxIterations = 10`), returning the
events it emits, in emission order, and the number of capability
invocations.  Thrown exceptions are caught by the `catch` inside the
stream's `start` and turn into a terminal `error` event. -/
def streamLoop (cap : Capability) (parse : String → ParseResult)
    (genres : List (String × String)) (avail : List String)
    (elapsedAt : Nat → Nat) :
    Nat → List ChatMessage → Nat → List StreamEvent × Nat
  | 0, _, iters => ([.error tooManyStepsMessage (some iters)], 0)
  | fuel + 1, msgs, iters =>
    let pEv := StreamEvent.progress (iters + 1) (progressMessage (iters + 1))
    match cap msgs with
    | .apiError _ m => ([pEv, .error m none], 1)
    | .otherError => ([pEv, .error genericFailureMessage none], 1)
    | .ok resp =>
      match resp.stopReason with
      | .endTurn =>
        let t := textContentOf resp.content
        ([pEv, .complete t (iters + 1) (elapsedAt (iters + 1))
            (some (checkIfCodeValidated parse t))], 1)
      | .toolUse =>
        match toolUseBlocksOf resp.content with
        | [] =>
          ([pEv, .complete (textContentOf resp.content) (iters + 1)
              (elapsedAt (iters + 1)) none], 1)
        | tub :: tubs =>
          let names := (tub :: tubs).map (fun t => t.2.1)
          let tEv := StreamEvent.tools names (toolsMessage names)
          match runTools genres avail parse (tub :: tubs) with
          | .error _ => ([pEv, tEv, .error genericFailureMessage none], 1)
          | .ok results =>
            let next := streamLoop cap parse genres avail elapsedAt fuel
              (appendToolRound msgs resp.content results) (iters + 1)
            (pEv :: tEv :: next.1, next.2 + 1)
      | .other _ =>
        ([pEv, .complete (textContentOf resp.content) (iters + 1)
            (elapsedAt (iters + 1)) none], 1)

/-- What the streaming `POST` returns: an early JSON response (missing
credential, unparseable body) or the SSE stream's event sequence. -/
inductive StreamPOSTResult where
  | json (status : Nat) (error : String)
  | stream (events : List StreamEvent)
deriving DecidableEq

/-- The event sequence of a streaming result (`[]` for JSON responses,
which emit no events). -/
def streamEvents : StreamPOSTResult → List StreamEvent
  | .json _ _ => []
  | .stream evs => evs

/-- The streaming route's `POST` handler.  `req.json()` failures are
rejected with a 400 JSON response before the stream exists; a `messages`
field that is not an array throws inside the stream's `start`, before the
`started` event is sent, so that run emits a single `error` event. -/
def POSTstream (hasApiKey : Bool) (cap : Capability) (parse : String → ParseResult)
    (genres : List (String × String)) (avail : List String)
    (elapsedAt : Nat → Nat) (body : RequestBody) : StreamPOSTResult × Nat :=
  if !hasApiKey then (.json 500 "ANTHROPIC_API_KEY not configured", 0)
  else
    match body with
    | .malformed => (.json 400 "Invalid request body", 0)
    | .notList => (.stream [.error genericFailureMessage none], 0)
    | .messagesOf msgs =>
      let run := streamLoop cap parse genres avail elapsedAt 10 msgs 0
      (.stream (StreamEvent.started "Understanding your request..." :: run.1), run.2)

/-! ## Auxiliary predicates and concrete instantiations -/

/-- The well-formed terminal shape of a loop-emitted event sequence:
every event before the last is a `progress`/`tools` event, and the last
event is the unique terminal (`complete` or `error`). -/
def loopShape : List StreamEvent → Bool
  | [] => false
  | [e] => isTerminalEvent e
  | e :: e2 :: rest => isMidEvent e && loopShape (e2 :: rest)

/-- Whenever a `complete` event carries a `validated` field, that field
equals the validator re-derivation on the carried content. -/
def completeConsistent (parse : String → ParseResult) : StreamEvent → Bool
  | .complete c _ _ (some v) => v == checkIfCodeValidated parse c
  | _ => true

/-- An argument value that is a string or falsy (absent, `null`, `0`,
`false`, or the empty string). -/
def stringOrFalsy : Option JValue → Prop
  | none => True
  | some (.str _) => True
  | some .null => True
  | some (.num n) => n = 0
  | some (.bool b) => b = false
  | some .obj => False

/-- The scripted-capability hypothesis of the budget claims: every
invocation requests at least one tool call (never natural completion),
and every requested call executes without throwing. -/
def AlwaysToolCalls (cap : Capability) (genres : List (String × String))
    (avail : List String) (parse : String → ParseResult) : Prop :=
  ∀ msgs, ∃ r, cap msgs = .ok r ∧ r.stopReason = .toolUse ∧
    toolUseBlocksOf r.content ≠ [] ∧
    ∃ rs, runTools genres avail parse (toolUseBlocksOf r.content) = .ok rs

/-- A parse oracle that always succeeds. -/
def parseAlwaysOk : String → ParseResult := fun _ => .success

/-- A clock that never advances. -/
def clockZero : Nat → Nat := fun _ => 0

/-- A clock for a capability slower than the 25 s fast-path budget:
30 s have elapsed after each iteration. -/
def clockSlow : Nat → Nat := fun k => k * 30000

/-- A clock already past the 25 s fast-path budget. -/
def clockOverBudget : Nat → Nat := fun _ => 30000

/-- A scripted capability that always requests one well-formed
`validate_code` tool call and never completes. -/
def capAlwaysToolCall : Capability := fun _ =>
  .ok { stopReason := .toolUse,
        content := [.toolUse "toolu_1" "validate_code"
          { genre := none, code := some (.str "setcps(130/4/60)\nstack(s(\"bd*4\"))") }] }

/-- A scripted capability that always completes naturally. -/
def capAlwaysEndTurn : Capability := fun _ =>
  .ok { stopReason := .endTurn, content := [.text "All done"] }

/-- A scripted capability that reports tool use but supplies no tool
blocks (the degenerate branch). -/
def capEmptyToolUse : Capability := fun _ =>
  .ok { stopReason := .toolUse, content := [.text "partial answer"] }

/-- A scripted capability whose call always throws a non-API error. -/
def capAlwaysThrow : Capability := fun _ => .otherError

/-! ## Theorems -/

/-- C2: on any parse failure `validateStrudelCode` short-circuits:
`valid = false`, the error list is exactly the one syntax error built
from the parser's message and optional location, the warnings list is
empty, and no hallucination or hygiene check contributes anything. -/
theorem c2_parse_failure_short_circuit (code : String) (e : ParseError) :
    validateStrudelCode (.failure e) code =
      { valid := false, errors := [syntaxErrorMessage e], warnings := [] } ∧
    (validateStrudelCode (.failure e) code).errors.length = 1 :=
  ⟨rfl, rfl⟩

/-- C1 (counterexample): a non-empty input that parses (a line comment),
contains `setcps(`, contains no deny-listed call and contains a playable
construct, yet is rejected, because the empty-assignment pattern
`\blet\s+\w+\s*=\s*;` matches inside the comment. -/
theorem c1_counterexample :
    let code := "setcps(130/4/60)\n// let x = ;\nstack(s(\"bd*4\"))"
    code ≠ "" ∧
    strIncludes code "setcps(" = true ∧
    (∀ h ∈ hallucinations, strIncludes code h = false) ∧
    hasPlayable code = true ∧
    (validateStrudelCode .success code).valid = false ∧
    (validateStrudelCode .success code).errors = ["Empty variable assignment found"] := by
  decide

/-- C1 (amended): for every non-empty input that parses successfully,
contains `setcps(`, contains none of the deny-listed call names, contains
a recognised playable construct, and additionally contains no match of
the empty-assignment pattern, `validateStrudelCode` returns `valid=true`
with an empty errors list. -/
theorem c1_amended (code : String)
    (_hne : code ≠ "")
    (htempo : strIncludes code "setcps(" = true)
    (hdeny : ∀ h ∈ hallucinations, strIncludes code h = false)
    (_hplay : hasPlayable code = true)
    (hlet : hasEmptyLet code = false) :
    (validateStrudelCode .success code).valid = true ∧
    (validateStrudelCode .success code).errors = [] := by
  have h1 := hdeny ".tempo(" (by simp [hallucinations])
  have h2 := hdeny ".glide(" (by simp [hallucinations])
  have h3 := hdeny ".portamento(" (by simp [hallucinations])
  have h4 := hdeny ".slide(" (by simp [hallucinations])
  have h5 := hdeny ".volume(" (by simp [hallucinations])
  simp [validateStrudelCode, hallucinations, htempo, hlet, h1, h2, h3, h4, h5]

/-- C1 (witness): the spec's own example input is accepted. -/
theorem c1_amended_witness :
    (validateStrudelCode .success
      "setcps(130/4/60)\nstack(s(\"bd*4\"), s(\"~ sd ~ sd\"))").valid = true ∧
    (validateStrudelCode .success
      "setcps(130/4/60)\nstack(s(\"bd*4\"), s(\"~ sd ~ sd\"))").errors = [] :=
  c1_amended _ (by decide) (by decide) (by decide) (by decide) (by decide)

/-- C6 (counterexample): an input without `setcps(` that fails to parse
gets only the syntax error, which does not mention the tempo
requirement — the claim's "regardless of any other content" fails on
parse-failing inputs. -/
theorem c6_counterexample :
    strIncludes "(" "setcps(" = false ∧
    (∀ e ∈ (validateStrudelCode
        (.failure { message := "Unexpected token (1:1)", loc := some (1, 1) }) "(").errors,
      strIncludes e "setcps(" = false) := by
  decide

/-- C6 (amended): for every input that parses successfully and does not
contain `setcps(`, the errors list contains an entry mentioning
`setcps(`. -/
theorem c6_amended (code : String) (h : strIncludes code "setcps(" = false) :
    ∃ e ∈ (validateStrudelCode .success code).errors, strIncludes e "setcps(" = true := by
  refine ⟨missingTempoMessage, ?_, by decide⟩
  simp [validateStrudelCode, h]

/-- C6 (witness): the spec's no-tempo example yields a `setcps(` error. -/
theorem c6_amended_witness :
    ∃ e ∈ (validateStrudelCode .success "stack(s(\"bd*4\"))").errors,
      strIncludes e "setcps(" = true :=
  c6_amended _ (by decide)

/-- A string-or-falsy genre value reaches `.toLowerCase()` as a string. -/
theorem jsOrEmptyStr_of_stringOrFalsy (g : Option JValue) (hg : stringOrFalsy g) :
    ∃ s, jsOrEmptyStr g = .str s := by
  match g with
  | none => exact ⟨"", rfl⟩
  | some (.str s) =>
    by_cases hs : (s == "") = true
    · exact ⟨"", by simp [jsOrEmptyStr, jsFalsy, hs]⟩
    · exact ⟨s, by simp [jsOrEmptyStr, jsFalsy, hs]⟩
  | some .null => exact ⟨"", rfl⟩
  | some (.num n) =>
    have h : n = 0 := hg
    subst h
    exact ⟨"", rfl⟩
  | some (.bool b) =>
    have h : b = false := hg
    subst h
    exact ⟨"", rfl⟩
  | some .obj => exact hg.elim

/-- C5 (counterexample): a truthy non-string genre argument throws a
`TypeError` out of `executeTool` (the TypeScript cast
`input.genre as string` has no runtime effect, so `.toLowerCase()` is
called on the number); and a string genre normalising to the inherited
property name `constructor` makes `executeTool` return the
`Object.prototype.constructor` function — not a descriptive string. -/
theorem c5_counterexample :
    executeTool [] [] parseAlwaysOk "read_genre" { genre := some (.num 42), code := none } =
      .error "TypeError: toLowerCase is not a function" ∧
    executeTool [] [] parseAlwaysOk "read_genre"
        { genre := some (.str "constructor"), code := none } = .ok .jsFunction ∧
    ∀ s, executeTool [] [] parseAlwaysOk "read_genre"
        { genre := some (.str "constructor"), code := none } ≠ .ok (.str s) := by
  refine ⟨rfl, rfl, ?_⟩
  intro s h
  rw [show executeTool [] [] parseAlwaysOk "read_genre"
      { genre := some (.str "constructor"), code := none } = .ok ToolReturn.jsFunction
    from rfl] at h
  exact ToolReturn.noConfusion (Except.ok.inj h)

/-- `executeTool` never throws on a string-or-falsy payload. -/
theorem executeTool_no_throw (genres : List (String × String)) (avail : List String)
    (parse : String → ParseResult) (name : String) (input : ToolInput)
    (hg : stringOrFalsy input.genre) (hc : stringOrFalsy input.code) :
    ∃ v, executeTool genres avail parse name input = .ok v := by
  unfold executeTool
  split
  · obtain ⟨s, hs⟩ := jsOrEmptyStr_of_stringOrFalsy input.genre hg
    rw [hs]
    rcases hb : bundledGenreProp genres (normalizeGenreKey s) with _ | pv
    · exact ⟨.str (unknownGenreMessage (normalizeGenreKey s) avail), by simp [hb]⟩
    · cases pv with
      | ownStr content =>
        by_cases he : (content == "") = true
        · exact ⟨.str (unknownGenreMessage (normalizeGenreKey s) avail), by simp [hb, he]⟩
        · exact ⟨.str (truncateGenreContent content), by simp [hb, he]⟩
      | protoConstructor => exact ⟨.jsFunction, by simp [hb]⟩
  · split
    · split
      · exact ⟨_, rfl⟩
      · rename_i hfal
        rcases hcode : input.code with _ | v
        · rw [hcode] at hfal
          exact absurd rfl hfal
        · cases v with
          | str s => exact ⟨_, rfl⟩
          | num n =>
            rw [hcode] at hc hfal
            have h : n = 0 := hc
            subst h
            exact absurd rfl hfal
          | bool b =>
            rw [hcode] at hc hfal
            have h : b = false := hc
            subst h
            exact absurd rfl hfal
          | null => rw [hcode] at hfal; exact absurd rfl hfal
          | obj => rw [hcode] at hc; exact hc.elim
    · exact ⟨_, rfl⟩

/-- On a string-or-falsy payload whose genre key does not reach the
inherited `constructor` property, `executeTool` returns a string. -/
theorem executeTool_str_result (genres : List (String × String)) (avail : List String)
    (parse : String → ParseResult) (name : String) (input : ToolInput)
    (hg : stringOrFalsy input.genre) (hc : stringOrFalsy input.code)
    (hctor : ∀ s, jsOrEmptyStr input.genre = .str s →
      bundledGenreProp genres (normalizeGenreKey s) ≠ some .protoConstructor) :
    ∃ s, executeTool genres avail parse name input = .ok (.str s) := by
  unfold executeTool
  split
  · obtain ⟨s, hs⟩ := jsOrEmptyStr_of_stringOrFalsy input.genre hg
    rw [hs]
    have hne := hctor s hs
    rcases hb : bundledGenreProp genres (normalizeGenreKey s) with _ | pv
    · exact ⟨unknownGenreMessage (normalizeGenreKey s) avail, by simp [hb]⟩
    · cases pv with
      | ownStr content =>
        by_cases he : (content == "") = true
        · exact ⟨unknownGenreMessage (normalizeGenreKey s) avail, by simp [hb, he]⟩
        · exact ⟨truncateGenreContent content, by simp [hb, he]⟩
      | protoConstructor => exact absurd hb hne
  · split
    · split
      · exact ⟨_, rfl⟩
      · rename_i hfal
        rcases hcode : input.code with _ | v
        · rw [hcode] at hfal
          exact absurd rfl hfal
        · cases v with
          | str s => exact ⟨_, rfl⟩
          | num n =>
            rw [hcode] at hc hfal
            have h : n = 0 := hc
            subst h
            exact absurd rfl hfal
          | bool b =>
            rw [hcode] at hc hfal
            have h : b = false := hc
            subst h
            exact absurd rfl hfal
          | null => rw [hcode] at hfal; exact absurd rfl hfal
          | obj => rw [hcode] at hc; exact hc.elim
    · exact ⟨_, rfl⟩

/-- C5 (amended): for every tool name (recognised or not) and every
argument payload whose supplied values are strings or falsy,
`executeTool` never throws; and it returns a descriptive string in
every case except a genre key whose normalisation reaches the inherited
`Object.prototype.constructor` property, where it returns that function
object instead of a string.  A truthy non-string argument value makes
it throw a `TypeError`. -/
theorem c5_amended :
    (∀ (genres : List (String × String)) (avail : List String)
       (parse : String → ParseResult) (name : String) (input : ToolInput),
      stringOrFalsy input.genre → stringOrFalsy input.code →
      ∃ v, executeTool genres avail parse name input = .ok v) ∧
    (∀ (genres : List (String × String)) (avail : List String)
       (parse : String → ParseResult) (name : String) (input : ToolInput),
      stringOrFalsy input.genre → stringOrFalsy input.code →
      (∀ s, jsOrEmptyStr input.genre = .str s →
        bundledGenreProp genres (normalizeGenreKey s) ≠ some .protoConstructor) →
      ∃ s, executeTool genres avail parse name input = .ok (.str s)) :=
  ⟨fun genres avail parse name input hg hc =>
    executeTool_no_throw genres avail parse name input hg hc,
   fun genres avail parse name input hg hc hctor =>
    executeTool_str_result genres avail parse name input hg hc hctor⟩

/-- C5 (witness): a recognised tool with a string argument and an
unknown tool name both return a string result. -/
theorem c5_amended_witness :
    (∃ s, executeTool [("techno", "# Techno DNA")] ["techno"] parseAlwaysOk "read_genre"
      { genre := some (.str "TECHNO!"), code := none } = .ok (.str s)) ∧
    (∃ s, executeTool [] [] parseAlwaysOk "no_such_tool"
      { genre := none, code := none } = .ok (.str s)) := by
  constructor
  · refine c5_amended.2 _ _ _ _ _ trivial trivial ?_
    intro s hs
    rw [show jsOrEmptyStr (some (JValue.str "TECHNO!")) = JValue.str "TECHNO!" from rfl] at hs
    injection hs with h
    subst h
    decide
  · refine c5_amended.2 _ _ _ _ _ trivial trivial ?_
    intro s hs
    rw [show jsOrEmptyStr (none : Option JValue) = JValue.str "" from rfl] at hs
    injection hs with h
    subst h
    decide

/-- The `read_genre` result depends on the key only through its
normalisation. -/
theorem executeTool_read_genre_eq (genres : List (String × String)) (avail : List String)
    (parse : String → ParseResult) (k : String) (c : Option JValue) :
    executeTool genres avail parse "read_genre" { genre := some (.str k), code := c } =
      (match bundledGenreProp genres (normalizeGenreKey k) with
       | some (.ownStr content) =>
         if content == "" then .ok (.str (unknownGenreMessage (normalizeGenreKey k) avail))
         else .ok (.str (truncateGenreContent content))
       | some .protoConstructor => .ok .jsFunction
       | none => .ok (.str (unknownGenreMessage (normalizeGenreKey k) avail))) := by
  by_cases hk : (k == "") = true
  · have h : k = "" := by simpa using hk
    subst h
    rfl
  · simp [executeTool, jsOrEmptyStr, jsFalsy, hk]

/-- C10 (counterexample): a key normalising to `constructor` is absent
from the genre table, yet the property read returns the inherited
`Object.prototype.constructor` function, which `executeTool` returns
instead of the advisory string. -/
theorem c10_counterexample :
    normalizeGenreKey "Constructor!" = "constructor" ∧
    List.lookup "constructor" ([] : List (String × String)) = none ∧
    executeTool [] ["techno"] parseAlwaysOk "read_genre"
        { genre := some (.str "Constructor!"), code := none } = .ok .jsFunction ∧
    executeTool [] ["techno"] parseAlwaysOk "read_genre"
        { genre := some (.str "Constructor!"), code := none } ≠
      .ok (.str (unknownGenreMessage "constructor" ["techno"])) := by
  refine ⟨by decide, rfl, rfl, ?_⟩
  intro h
  rw [show executeTool [] ["techno"] parseAlwaysOk "read_genre"
      { genre := some (.str "Constructor!"), code := none } = .ok ToolReturn.jsFunction
    from rfl] at h
  exact ToolReturn.noConfusion (Except.ok.inj h)

/-- C10 (amended): the `read_genre` lookup key is normalised
(lower-cased, then every character outside `a`-`z` deleted) before the
property read, so keys with equal normalisations resolve identically;
a key unrecognised after normalisation returns the advisory string
listing the available genres — except a key normalising to the
inherited property name `constructor`, for which the JS property read
yields `Object.prototype.constructor` and `executeTool` returns that
function instead of the advisory. -/
theorem c10_read_genre_normalization :
    (∀ (genres : List (String × String)) (avail : List String)
       (parse : String → ParseResult) (k1 k2 : String) (c : Option JValue),
      normalizeGenreKey k1 = normalizeGenreKey k2 →
      executeTool genres avail parse "read_genre" { genre := some (.str k1), code := c } =
        executeTool genres avail parse "read_genre" { genre := some (.str k2), code := c }) ∧
    (∀ (genres : List (String × String)) (avail : List String)
       (parse : String → ParseResult) (k : String) (c : Option JValue),
      List.lookup (normalizeGenreKey k) genres = none →
      normalizeGenreKey k ≠ "constructor" →
      executeTool genres avail parse "read_genre" { genre := some (.str k), code := c } =
        .ok (.str (unknownGenreMessage (normalizeGenreKey k) avail))) ∧
    (∀ (genres : List (String × String)) (avail : List String)
       (parse : String → ParseResult) (k : String) (c : Option JValue),
      List.lookup (normalizeGenreKey k) genres = none →
      normalizeGenreKey k = "constructor" →
      executeTool genres avail parse "read_genre" { genre := some (.str k), code := c } =
        .ok .jsFunction) := by
  refine ⟨?_, ?_, ?_⟩
  · intro genres avail parse k1 k2 c h
    rw [executeTool_read_genre_eq, executeTool_read_genre_eq, h]
  · intro genres avail parse k c h1 h2
    rw [executeTool_read_genre_eq]
    simp [bundledGenreProp, h1, h2]
  · intro genres avail parse k c h1 h2
    rw [executeTool_read_genre_eq, h2]
    rw [h2] at h1
    simp [bundledGenreProp, h1]

/-- C10 (witness): `"Drum & Bass!!"` and `"drumbass"` resolve alike, an
unrecognised key gets the advisory string, and a key normalising to
`constructor` gets the inherited function. -/
theorem c10_witness :
    (executeTool [("techno", "# Techno")] ["techno"] parseAlwaysOk "read_genre"
        { genre := some (.str "Drum & Bass!!"), code := none } =
      executeTool [("techno", "# Techno")] ["techno"] parseAlwaysOk "read_genre"
        { genre := some (.str "drumbass"), code := none }) ∧
    executeTool [("techno", "# Techno")] ["techno"] parseAlwaysOk "read_genre"
        { genre := some (.str "Drum & Bass!!"), code := none } =
      .ok (.str (unknownGenreMessage "drumbass" ["techno"])) ∧
    executeTool [("techno", "# Techno")] ["techno"] parseAlwaysOk "read_genre"
        { genre := some (.str "ConStRucToR"), code := none } = .ok .jsFunction := by
  refine ⟨?_, ?_, ?_⟩
  · exact c10_read_genre_normalization.1 _ _ _ _ _ _ (by decide)
  · have h2 := c10_read_genre_normalization.2.1 [("techno", "# Techno")] ["techno"]
      parseAlwaysOk "Drum & Bass!!" none (by decide) (by decide)
    rw [show normalizeGenreKey "Drum & Bass!!" = "drumbass" from by decide] at h2
    exact h2
  · exact c10_read_genre_normalization.2.2 [("techno", "# Techno")] ["techno"]
      parseAlwaysOk "ConStRucToR" none (by decide) (by decide)

/-- C7 (counterexample): on the fast route an unparseable body is caught
by the catch-all and answered with status 500, a server-error status, not
a client-error (4xx) one. -/
theorem c7_counterexample :
    POSTfast true capAlwaysEndTurn parseAlwaysOk [] [] clockZero .malformed =
      (genericFailureResponse, 0) ∧
    ¬ (POSTfast true capAlwaysEndTurn parseAlwaysOk [] [] clockZero .malformed).1.status < 500 :=
  ⟨rfl, by decide⟩

/-- C7 (amended): malformed bodies are rejected before any capability
invocation (the invocation count is 0) with a diagnostic, but only the
streaming route's unparseable-JSON case gets a 400; the fast route
answers 500 for both failure modes, and the streaming route turns a
non-list `messages` field into a single `error` event. -/
theorem c7_amended (cap : Capability) (parse : String → ParseResult)
    (genres : List (String × String)) (avail : List String) (elapsedAt : Nat → Nat) :
    POSTfast true cap parse genres avail elapsedAt .malformed = (genericFailureResponse, 0) ∧
    POSTfast true cap parse genres avail elapsedAt .notList = (genericFailureResponse, 0) ∧
    POSTstream true cap parse genres avail elapsedAt .malformed =
      (.json 400 "Invalid request body", 0) ∧
    POSTstream true cap parse genres avail elapsedAt .notList =
      (.stream [.error genericFailureMessage none], 0) :=
  ⟨rfl, rfl, rfl, rfl⟩

/-- A capability that always requests tool calls drives the fast loop to
iteration exhaustion: the loop consumes all its fuel, invoking the
capability once per unit of fuel, and ends in the 500 too-many-steps
response. -/
theorem fastLoop_always_tool (cap : Capability) (parse : String → ParseResult)
    (genres : List (String × String)) (avail : List String) (elapsedAt : Nat → Nat)
    (hcap : AlwaysToolCalls cap genres avail parse)
    (htime : ∀ k, elapsedAt k ≤ 25000) :
    ∀ fuel msgs iters, fastLoop cap parse genres avail elapsedAt fuel msgs iters =
      ({ status := 500, content := none, iterations := some (iters + fuel), timeMs := none,
         error := some tooManyStepsMessage, timeout := false }, fuel) := by
  intro fuel
  induction fuel with
  | zero => intro msgs iters; simp [fastLoop]
  | succ n ih =>
    intro msgs iters
    obtain ⟨r, hr, hstop, hne, rs, hrs⟩ := hcap msgs
    cases ht : toolUseBlocksOf r.content with
    | nil => exact absurd ht hne
    | cons a as =>
      rw [ht] at hrs
      have hnotime : ¬ elapsedAt iters > 25000 := not_lt.mpr (htime iters)
      simp only [fastLoop, if_neg hnotime, hr, hstop, ht, hrs, ih]
      have harith : iters + 1 + n = iters + (n + 1) := by omega
      rw [harith]

/-- The streaming analogue of `fastLoop_always_tool`: the loop consumes
all its fuel, and the event list ends in the too-many-steps `error`
event carrying the exhausted iteration count. -/
theorem streamLoop_always_tool (cap : Capability) (parse : String → ParseResult)
    (genres : List (String × String)) (avail : List String) (elapsedAt : Nat → Nat)
    (hcap : AlwaysToolCalls cap genres avail parse) :
    ∀ fuel msgs iters, ∃ pre,
      streamLoop cap parse genres avail elapsedAt fuel msgs iters =
        (pre ++ [.error tooManyStepsMessage (some (iters + fuel))], fuel) := by
  intro fuel
  induction fuel with
  | zero => intro msgs iters; exact ⟨[], by simp [streamLoop]⟩
  | succ n ih =>
    intro msgs iters
    obtain ⟨r, hr, hstop, hne, rs, hrs⟩ := hcap msgs
    cases ht : toolUseBlocksOf r.content with
    | nil => exact absurd ht hne
    | cons a as =>
      rw [ht] at hrs
      obtain ⟨pre, hpre⟩ := ih (appendToolRound msgs r.content rs) (iters + 1)
      refine ⟨StreamEvent.progress (iters + 1) (progressMessage (iters + 1)) ::
        StreamEvent.tools ((a :: as).map (fun t => t.2.1))
          (toolsMessage ((a :: as).map (fun t => t.2.1))) :: pre, ?_⟩
      simp only [streamLoop, hr, hstop, ht, hrs, hpre]
      have harith : iters + 1 + n = iters + (n + 1) := by omega
      rw [harith]
      simp

/-- C3 (amended): for a capability that on every invocation requests
tool calls whose execution does not throw, and — on the fast path — a
run whose wall-clock stays within the 25 s budget, the fast route
invokes the capability exactly 4 times and returns the 500
too-many-steps response, and the streaming route invokes it exactly 10
times and ends its event sequence with the too-many-steps `error`
event; neither path ever exceeds its iteration cap. -/
theorem c3_amended (cap : Capability) (parse : String → ParseResult)
    (genres : List (String × String)) (avail : List String) (elapsedAt : Nat → Nat)
    (msgs : List ChatMessage)
    (hcap : AlwaysToolCalls cap genres avail parse)
    (htime : ∀ k, elapsedAt k ≤ 25000) :
    POSTfast true cap parse genres avail elapsedAt (.messagesOf msgs) =
      ({ status := 500, content := none, iterations := some 4, timeMs := none,
         error := some tooManyStepsMessage, timeout := false }, 4) ∧
    (POSTstream true cap parse genres avail elapsedAt (.messagesOf msgs)).2 = 10 ∧
    ∃ pre, streamEvents (POSTstream true cap parse genres avail elapsedAt (.messagesOf msgs)).1 =
      StreamEvent.started "Understanding your request..." ::
        (pre ++ [StreamEvent.error tooManyStepsMessage (some 10)]) := by
  obtain ⟨pre, hpre⟩ := streamLoop_always_tool cap parse genres avail elapsedAt hcap 10 msgs 0
  refine ⟨?_, ?_, ⟨pre, ?_⟩⟩
  · have h := fastLoop_always_tool cap parse genres avail elapsedAt hcap htime 4 msgs 0
    simpa [POSTfast] using h
  · simp [POSTstream, hpre]
  · simp [POSTstream, hpre, streamEvents]

/-- C3 (counterexample): a capability that always requests a (well
behaved) tool call but is slower than the fast path's wall-clock budget
is invoked only once — not 4 times — before the 504 timeout response. -/
theorem c3_counterexample :
    POSTfast true capAlwaysToolCall parseAlwaysOk [] [] clockSlow
        (.messagesOf [{ role := .user, content := .text "make techno" }]) =
      ({ status := 504, content := none, iterations := none, timeMs := none,
         error := some tooLongMessage, timeout := true }, 1) ∧
    (POSTfast true capAlwaysToolCall parseAlwaysOk [] [] clockSlow
        (.messagesOf [{ role := .user, content := .text "make techno" }])).2 ≠ 4 := by
  constructor
  · rfl
  · decide

/-- The scripted capability of the witnesses satisfies the
always-tool-calls hypothesis. -/
theorem capAlwaysToolCall_always : AlwaysToolCalls capAlwaysToolCall [] [] parseAlwaysOk :=
  fun _ => ⟨_, rfl, rfl, List.cons_ne_nil _ _, _, rfl⟩

/-- C3 (witness): the scripted always-tool capability under a zero clock
hits exactly 4 fast-path and 10 streaming-path invocations. -/
theorem c3_amended_witness :
    POSTfast true capAlwaysToolCall parseAlwaysOk [] [] clockZero
        (.messagesOf [{ role := .user, content := .text "go" }]) =
      ({ status := 500, content := none, iterations := some 4, timeMs := none,
         error := some tooManyStepsMessage, timeout := false }, 4) ∧
    (POSTstream true capAlwaysToolCall parseAlwaysOk [] [] clockZero
        (.messagesOf [{ role := .user, content := .text "go" }])).2 = 10 := by
  have h := c3_amended capAlwaysToolCall parseAlwaysOk [] [] clockZero
    [{ role := .user, content := .text "go" }]
    capAlwaysToolCall_always (fun _ => Nat.zero_le _)
  exact ⟨h.1, h.2.1⟩

/-- C9 (counterexample): iteration-cap exhaustion on the fast path is
reported with status 500 — the same status the catch-all uses for
generic failure — so the HTTP status does not distinguish them. -/
theorem c9_counterexample :
    (POSTfast true capAlwaysToolCall parseAlwaysOk [] [] clockZero
        (.messagesOf [{ role := .user, content := .text "make techno" }])).1.error =
      some tooManyStepsMessage ∧
    (POSTfast true capAlwaysToolCall parseAlwaysOk [] [] clockZero
        (.messagesOf [{ role := .user, content := .text "make techno" }])).1.status = 500 ∧
    (POSTfast true capAlwaysThrow parseAlwaysOk [] [] clockZero
        (.messagesOf [{ role := .user, content := .text "make techno" }])).1 =
      genericFailureResponse ∧
    genericFailureResponse.status = 500 :=
  ⟨rfl, rfl, rfl, rfl⟩

/-- C9 (amended): only wall-clock exhaustion gets a status (504)
distinct from generic failure's 500; iteration-cap exhaustion shares
status 500 with generic failure and is distinguishable only through the
response body (the too-many-steps error text and the `iterations`
field). -/
theorem c9_amended :
    (∀ (cap : Capability) (parse : String → ParseResult) genres avail
       (elapsedAt : Nat → Nat) msgs,
      elapsedAt 0 > 25000 →
      (POSTfast true cap parse genres avail elapsedAt (.messagesOf msgs)).1 =
        { status := 504, content := none, iterations := none, timeMs := none,
          error := some tooLongMessage, timeout := true }) ∧
    ((504 : Nat) ≠ 500) ∧
    (∀ (cap : Capability) (parse : String → ParseResult) genres avail
       (elapsedAt : Nat → Nat) msgs,
      AlwaysToolCalls cap genres avail parse → (∀ k, elapsedAt k ≤ 25000) →
      (POSTfast true cap parse genres avail elapsedAt (.messagesOf msgs)).1 =
        { status := 500, content := none, iterations := some 4, timeMs := none,
          error := some tooManyStepsMessage, timeout := false }) ∧
    (∀ (cap : Capability) (parse : String → ParseResult) genres avail
       (elapsedAt : Nat → Nat) msgs,
      elapsedAt 0 ≤ 25000 → cap msgs = .otherError →
      (POSTfast true cap parse genres avail elapsedAt (.messagesOf msgs)).1 =
        genericFailureResponse) := by
  refine ⟨?_, by decide, ?_, ?_⟩
  · intro cap parse genres avail elapsedAt msgs h
    simp [POSTfast, show (4 : Nat) = 3 + 1 from rfl, fastLoop, if_pos h]
  · intro cap parse genres avail elapsedAt msgs hcap htime
    have h := fastLoop_always_tool cap parse genres avail elapsedAt hcap htime 4 msgs 0
    simp [POSTfast, h]
  · intro cap parse genres avail elapsedAt msgs h1 h2
    have hnotime : ¬ elapsedAt 0 > 25000 := not_lt.mpr h1
    simp [POSTfast, show (4 : Nat) = 3 + 1 from rfl, fastLoop, if_neg hnotime, h2]

/-- C9 (witness): concrete runs of each of the three outcome classes. -/
theorem c9_amended_witness :
    (POSTfast true capAlwaysEndTurn parseAlwaysOk [] [] clockOverBudget
        (.messagesOf [{ role := .user, content := .text "hi" }])).1 =
      { status := 504, content := none, iterations := none, timeMs := none,
        error := some tooLongMessage, timeout := true } ∧
    (POSTfast true capAlwaysToolCall parseAlwaysOk [] [] clockZero
        (.messagesOf [{ role := .user, content := .text "hi" }])).1 =
      { status := 500, content := none, iterations := some 4, timeMs := none,
        error := some tooManyStepsMessage, timeout := false } ∧
    (POSTfast true capAlwaysThrow parseAlwaysOk [] [] clockZero
        (.messagesOf [{ role := .user, content := .text "hi" }])).1 =
      genericFailureResponse := by
  refine ⟨?_, ?_, ?_⟩
  · exact c9_amended.1 _ _ _ _ _ _ (by decide)
  · exact c9_amended.2.2.1 _ _ _ _ _ _ capAlwaysToolCall_always (fun _ => Nat.zero_le _)
  · exact c9_amended.2.2.2 _ _ _ _ _ _ (Nat.zero_le _) rfl

/-- Prepending a mid event preserves the terminal trace shape. -/
theorem loopShape_cons (e : StreamEvent) (l : List StreamEvent)
    (he : isMidEvent e = true) (hl : loopShape l = true) :
    loopShape (e :: l) = true := by
  cases l with
  | nil => simp [loopShape] at hl
  | cons a as => simp [loopShape, he, hl]

/-- Every event list the streaming loop emits consists of mid
(`progress`/`tools`) events followed by exactly one terminal event. -/
theorem streamLoop_shape (cap : Capability) (parse : String → ParseResult)
    (genres : List (String × String)) (avail : List String) (elapsedAt : Nat → Nat) :
    ∀ fuel msgs iters,
      loopShape (streamLoop cap parse genres avail elapsedAt fuel msgs iters).1 = true := by
  intro fuel
  induction fuel with
  | zero => intro msgs iters; simp [streamLoop, loopShape, isTerminalEvent]
  | succ n ih =>
    intro msgs iters
    simp only [streamLoop]
    cases hc : cap msgs with
    | ok r =>
      cases hs : r.stopReason with
      | endTurn => simp [hs, loopShape, isTerminalEvent, isMidEvent]
      | toolUse =>
        cases ht : toolUseBlocksOf r.content with
        | nil => simp [hs, ht, loopShape, isTerminalEvent, isMidEvent]
        | cons a as =>
          cases hr : runTools genres avail parse (a :: as) with
          | error e => simp [hs, ht, hr, loopShape, isTerminalEvent, isMidEvent]
          | ok rs =>
            simp only [hs, ht, hr]
            apply loopShape_cons
            · rfl
            · apply loopShape_cons
              · rfl
              · exact ih _ _
      | other s => simp [hs, loopShape, isTerminalEvent, isMidEvent]
    | apiError st m => simp [loopShape, isTerminalEvent, isMidEvent]
    | otherError => simp [loopShape, isTerminalEvent, isMidEvent]

/-- A terminally shaped trace contains no `started` event. -/
theorem loopShape_all_not_started :
    ∀ l : List StreamEvent, loopShape l = true →
      l.all (fun ev => !isStartedEvent ev) = true := by
  intro l
  induction l with
  | nil => intro h; simp [loopShape] at h
  | cons e rest ih =>
    intro h
    cases rest with
    | nil =>
      cases e <;> simp_all [loopShape, isTerminalEvent, isStartedEvent]
    | cons e2 r2 =>
      rw [loopShape] at h
      have he := (Bool.and_eq_true _ _).mp h
      have h1 := ih he.2
      cases e <;> simp_all [isMidEvent, isStartedEvent]

/-- C4 (amended): every streaming run that reaches the loop emits
exactly one `started` event first (before any capability invocation),
then zero or more `progress`/`tools` events, and ends with exactly one
terminal `complete`/`error` event with nothing after it; a run whose
`messages` field is not a list fails before `started` and emits a single
`error` event only. -/
theorem c4_amended :
    (∀ (cap : Capability) (parse : String → ParseResult) genres avail
       (elapsedAt : Nat → Nat) msgs,
      ∃ rest, (POSTstream true cap parse genres avail elapsedAt (.messagesOf msgs)).1 =
          .stream (StreamEvent.started "Understanding your request..." :: rest) ∧
        loopShape rest = true ∧
        rest.all (fun ev => !isStartedEvent ev) = true) ∧
    (∀ (cap : Capability) (parse : String → ParseResult) genres avail
       (elapsedAt : Nat → Nat),
      (POSTstream true cap parse genres avail elapsedAt .notList).1 =
        .stream [.error genericFailureMessage none]) := by
  constructor
  · intro cap parse genres avail elapsedAt msgs
    refine ⟨(streamLoop cap parse genres avail elapsedAt 10 msgs 0).1, rfl, ?_, ?_⟩
    · exact streamLoop_shape cap parse genres avail elapsedAt 10 msgs 0
    · exact loopShape_all_not_started _
        (streamLoop_shape cap parse genres avail elapsedAt 10 msgs 0)
  · intro cap parse genres avail elapsedAt
    rfl

/-- C4 (counterexample): a streaming run whose `messages` field is not a
list emits a non-empty event sequence that does not begin with a
`started` event. -/
theorem c4_counterexample :
    streamEvents (POSTstream true capAlwaysEndTurn parseAlwaysOk [] [] clockZero .notList).1 =
      [.error genericFailureMessage none] ∧
    (streamEvents
        (POSTstream true capAlwaysEndTurn parseAlwaysOk [] [] clockZero .notList).1).all
      (fun ev => !isStartedEvent ev) = true ∧
    streamEvents (POSTstream true capAlwaysEndTurn parseAlwaysOk [] [] clockZero .notList).1 ≠ [] :=
  ⟨rfl, rfl, by decide⟩

/-- Every `validated` field the streaming loop emits equals the validator
re-derivation on the event's own content. -/
theorem streamLoop_complete_consistent (cap : Capability) (parse : String → ParseResult)
    (genres : List (String × String)) (avail : List String) (elapsedAt : Nat → Nat) :
    ∀ fuel msgs iters,
      ((streamLoop cap parse genres avail elapsedAt fuel msgs iters).1.all
        (completeConsistent parse)) = true := by
  intro fuel
  induction fuel with
  | zero => intro msgs iters; simp [streamLoop, completeConsistent]
  | succ n ih =>
    intro msgs iters
    simp only [streamLoop]
    cases hc : cap msgs with
    | ok r =>
      cases hs : r.stopReason with
      | endTurn => simp [hs, completeConsistent]
      | toolUse =>
        cases ht : toolUseBlocksOf r.content with
        | nil => simp [hs, ht, completeConsistent]
        | cons a as =>
          cases hr : runTools genres avail parse (a :: as) with
          | error e => simp [hs, ht, hr, completeConsistent]
          | ok rs => simp [hs, ht, hr, completeConsistent, ih]
      | other s => simp [hs, completeConsistent]
    | apiError st m => simp [completeConsistent]
    | otherError => simp [completeConsistent]

/-- C8 (amended): whenever an emitted `complete` event carries the
`validated` field, the field equals the independent re-derivation
(extract the fenced block from the carried content, rerun the validator);
the natural-completion (`end_turn`) path always emits `complete` with
content, iteration count, elapsed time and that re-derived boolean,
while the degenerate tool-use-without-blocks and unexpected-stop paths
emit `complete` without a `validated` field. -/
theorem c8_amended :
    (∀ (cap : Capability) (parse : String → ParseResult) genres avail
       (elapsedAt : Nat → Nat) body,
      ((streamEvents (POSTstream true cap parse genres avail elapsedAt body).1).all
        (completeConsistent parse)) = true) ∧
    (∀ (cap : Capability) (parse : String → ParseResult) genres avail
       (elapsedAt : Nat → Nat) fuel msgs iters r,
      cap msgs = .ok r → r.stopReason = .endTurn →
      (streamLoop cap parse genres avail elapsedAt (fuel + 1) msgs iters).1 =
        [StreamEvent.progress (iters + 1) (progressMessage (iters + 1)),
         StreamEvent.complete (textContentOf r.content) (iters + 1) (elapsedAt (iters + 1))
           (some (checkIfCodeValidated parse (textContentOf r.content)))]) := by
  constructor
  · intro cap parse genres avail elapsedAt body
    cases body with
    | malformed => rfl
    | notList => rfl
    | messagesOf msgs =>
      have h := streamLoop_complete_consistent cap parse genres avail elapsedAt 10 msgs 0
      simp [POSTstream, streamEvents, completeConsistent, h]
  · intro cap parse genres avail elapsedAt fuel msgs iters r hc hs
    simp [streamLoop, hc, hs]

/-- C8 (witness): a concrete run with consistent `validated` fields, and
the natural-completion trace equation at a concrete capability. -/
theorem c8_amended_witness :
    ((streamEvents (POSTstream true capAlwaysEndTurn parseAlwaysOk [] [] clockZero
        (.messagesOf [{ role := .user, content := .text "hi" }])).1).all
      (completeConsistent parseAlwaysOk)) = true ∧
    (streamLoop capAlwaysEndTurn parseAlwaysOk [] [] clockZero 1 [] 0).1 =
      [StreamEvent.progress 1 (progressMessage 1),
       StreamEvent.complete (textContentOf [.text "All done"]) 1 (clockZero 1)
         (some (checkIfCodeValidated parseAlwaysOk (textContentOf [.text "All done"])))] :=
  ⟨c8_amended.1 _ _ _ _ _ _,
   c8_amended.2 capAlwaysEndTurn parseAlwaysOk [] [] clockZero 0 []
     0 { stopReason := .endTurn, content := [.text "All done"] } rfl rfl⟩

/-- C8 (counterexample): the degenerate tool-use-without-blocks path
emits a `complete` event with no `validated` field at all. -/
theorem c8_counterexample :
    streamEvents (POSTstream true capEmptyToolUse parseAlwaysOk [] [] clockZero
        (.messagesOf [{ role := .user, content := .text "hi" }])).1 =
      [.started "Understanding your request...",
       .progress 1 "Generating track...",
       .complete "partial answer" 1 0 none] := rfl

end StrudelStudio
